import Mathlib

/-!
Verification of the beesting Lisp interpreter core (src/parser.rs, src/eval.rs,
src/root_env.rs, src/errors.rs) against its design specification.

The Rust code is shallowly embedded: `Rc<RefCell<Environment>>` references are
indices into a global heap of frames (`State.envs`), `Rc<RefCell<Ast>>` atom
cells are indices into `State.atoms`, `i64` values are `Int` (the two's
complement wrap of release builds is outside every claim considered here), and
host panics (`todo!`, `unwrap`, `Vec::remove` out of bounds, division by zero)
are an explicit `panic` outcome.  The evaluator is fueled: every trampoline
iteration and every host-recursive sub-evaluation consumes one unit of fuel,
and running out of fuel is the explicit `timeout` outcome standing for a
computation that needs more steps.
-/

set_option maxRecDepth 8000

namespace Beesting

/-- Token kinds produced by the tokenizer (`parser.rs` `Token`). -/
inductive Token where
  | LeftParen : Token
  | RightParen : Token
  | Symbol : String → Token
  | Integer : Int → Token
  | String : String → Token
deriving DecidableEq, Repr

/-- Runtime value / AST (`parser.rs` `Ast`, together with the `Atom` variant that
`eval.rs` and `root_env.rs` pattern-match on).  A `Function` stores the
`UserFunction` payload `{params, body, env}`, the captured environment being an
index into the heap of frames; a `Builtin` is identified by its registered name,
which in `create_root_env` uniquely determines the paired native function
pointer. -/
inductive Ast where
  | Symbol : String → Ast
  | Integer : Int → Ast
  | Boolean : Bool → Ast
  | String : String → Ast
  | List : List Ast → Ast
  | Function : List String → Ast → Nat → Ast
  | Builtin : String → Ast
  | Nil : Ast
  | Atom : Nat → Ast

/-- `root_env.rs` `Environment`: one frame of the lexical chain.  `parent` is an
index into the heap of frames. -/
structure Environment where
  values : List (String × Ast)
  parent : Option Nat

/-- The global mutable store: every shared `Rc<RefCell<Environment>>` is an
index into `envs`, every atom cell an index into `atoms`. -/
structure State where
  envs : List Environment
  atoms : List Ast

/-- `parser.rs` `ParserError`. -/
inductive ParserError where
  | ExpectedGot : Nat → Token → Token → ParserError
  | ExpectedGotEof : Token → ParserError
  | ExpectedAnyGotEof : ParserError
  | TypeMismatch : String → Nat → String → Ast → ParserError
  | ExpectedSymbol : ParserError

/-- `errors.rs` `ReplError`.  The payload of `IoError` is host-specific and not
modelled. -/
inductive ReplError where
  | ParserError : ParserError → ReplError
  | IoError : ReplError
  | SymbolUndefined : String → ReplError

/-- Outcome of an evaluator-side computation: a value together with the updated
store, a propagated `ReplError`, a host panic, or fuel exhaustion. -/
inductive EvalRes (α : Type) where
  | ok : α → State → EvalRes α
  | err : ReplError → EvalRes α
  | panic : String → EvalRes α
  | timeout : EvalRes α

/-- Sequencing of evaluator computations: `?`-style propagation of errors,
panics and timeouts. -/
def EvalRes.bind {α β : Type} (r : EvalRes α) (f : α → State → EvalRes β) : EvalRes β :=
  match r with
  | .ok a st => f a st
  | .err e => .err e
  | .panic m => .panic m
  | .timeout => .timeout

/-- Outcome of a pure (store-free) computation that may fail or panic. -/
inductive RRes (α : Type) where
  | ok : α → RRes α
  | err : ReplError → RRes α
  | panic : String → RRes α

/-- Outcome of a parser computation (`Result<_, ParserError>` plus the reachable
`panic!("wtf")` in `parse_atom`). -/
inductive PRes (α : Type) where
  | ok : α → PRes α
  | err : ParserError → PRes α
  | panic : String → PRes α

/-- `EvalBehaviour` from `eval.rs`: what one trampoline iteration asks the
driver loop to do next. -/
inductive EvalBehaviour where
  | ReturnImmediately : Ast → EvalBehaviour
  | LoopWithAst : Ast → EvalBehaviour
  | LoopWithAstAndEnv : Ast → Nat → EvalBehaviour

/-- `HashMap::get` on a frame's bindings.  Bindings are kept as an association
list where insertion prepends, so the most recent insertion wins, matching the
map's overwrite semantics observationally. -/
def frameLookup (vs : List (String × Ast)) (s : String) : Option Ast :=
  match vs.find? (fun p => p.1 == s) with
  | some p => some p.2
  | none => none

/-- The parent-chain walk of `root_env.rs` `lookup`.  The Rust code recurses
on the parent `Rc` unconditionally; here the recursion is bounded by a fuel
that the wrapper sets to `e + 1`, which can never run out on the heaps the
evaluator builds, because a frame's parent is always an older (smaller-index)
frame, so the chain starting at `e` has at most `e + 1` frames. -/
def lookup_go : Nat → String → Nat → State → Except ReplError Ast
  | 0, s, _, _ => .error (.SymbolUndefined s)
  | fuel + 1, s, e, st =>
    match st.envs.get? e with
    | none => .error (.SymbolUndefined s)
    | some f =>
      match frameLookup f.values s with
      | some v => .ok v
      | none =>
        match f.parent with
        | none => .error (.SymbolUndefined s)
        | some p => lookup_go fuel s p st

/-- `root_env.rs` `lookup`: check the current frame's bindings, then recurse
into the parent; reaching a parentless frame without a hit is an
unresolved-symbol error. -/
def lookup (s : String) (e : Nat) (st : State) : Except ReplError Ast :=
  lookup_go (e + 1) s e st

/-- The parent-chain walk of `root_env.rs` `get_root`, fueled like
`lookup_go`. -/
def get_root_go : Nat → Nat → State → Nat
  | 0, e, _ => e
  | fuel + 1, e, st =>
    match st.envs.get? e with
    | none => e
    | some f =>
      match f.parent with
      | none => e
      | some p => get_root_go fuel p st

/-- `root_env.rs` `get_root`: walk the parent chain to the parentless
frame. -/
def get_root (e : Nat) (st : State) : Nat :=
  get_root_go (e + 1) e st

/-- `Rc::new(RefCell::new(environment))`: put a fresh frame on the heap and
return its index. -/
def allocEnv (st : State) (f : Environment) : State × Nat :=
  ({ st with envs := st.envs ++ [f] }, st.envs.length)

/-- `Vec::pop` returning the popped element together with the remaining
vector. -/
def popBack {α : Type} (xs : List α) : Option (α × List α) :=
  match xs.reverse with
  | [] => none
  | y :: rest => some (y, rest.reverse)

/-- `Vec::remove(i)` returning the removed element together with the remaining
vector; `none` models the out-of-bounds panic (`i` not less than the
length). -/
def vecRemove {α : Type} (xs : List α) (i : Nat) : Option (α × List α) :=
  match xs.drop i with
  | [] => none
  | y :: rest => some (y, xs.take i ++ rest)

/-- `eval.rs` `get_symbol_name`. -/
def get_symbol_name (ast : Ast) : Except ReplError String :=
  match ast with
  | .Symbol s => .ok s
  | _ => .error (.ParserError .ExpectedSymbol)

/-- `eval.rs` `get_symbol_list` (the non-list case is `todo!("Error: not a list")`). -/
def get_symbol_list (ast : Ast) : RRes (List String) :=
  match ast with
  | .List xs => go xs
  | _ => .panic "Error: not a list"
where
  go : List Ast → RRes (List String)
    | [] => .ok []
    | x :: rest =>
      match get_symbol_name x with
      | .error e => .err e
      | .ok s =>
        match go rest with
        | .ok ss => .ok (s :: ss)
        | .err e => .err e
        | .panic m => .panic m

/-- `eval.rs` `bind_fn`: zip parameter names with argument values — `zip` stops
at the shorter list, so surplus arguments are dropped and missing parameters
never enter the frame — into a fresh frame whose parent is the closure's
captured environment. -/
def bind_fn (params : List String) (args : List Ast) (env : Nat) : Environment :=
  { values := (params.zip args).foldl (fun vs p => p :: vs) [], parent := some env }

/-- `mem::discriminant` on `Ast`. -/
def astTag : Ast → Nat
  | .Symbol _ => 0
  | .Integer _ => 1
  | .Boolean _ => 2
  | .String _ => 3
  | .List _ => 4
  | .Function _ _ _ => 5
  | .Builtin _ => 6
  | .Nil => 7
  | .Atom _ => 8

/- ## Tokenizer (`parser.rs`) -/

/-- Rust `char::is_whitespace`: the Unicode `White_Space` property. -/
def rustIsWhitespace (c : Char) : Bool :=
  let n := c.toNat
  decide ((9 ≤ n ∧ n ≤ 13) ∨ n = 32 ∨ n = 0x85 ∨ n = 0xA0 ∨ n = 0x1680 ∨
    (0x2000 ≤ n ∧ n ≤ 0x200A) ∨ n = 0x2028 ∨ n = 0x2029 ∨ n = 0x202F ∨
    n = 0x205F ∨ n = 0x3000)

/-- Rust `<i64 as FromStr>::from_str`: an optional single `+`/`-` sign followed
by at least one ASCII digit, rejected when the value falls outside the `i64`
range. -/
def parseI64 (s : String) : Option Int :=
  match s.data with
  | [] => none
  | c :: rest =>
    let signed : Bool × List Char :=
      if c = '-' then (true, rest) else if c = '+' then (false, rest) else (false, c :: rest)
    match signed with
    | (neg, digits) =>
      if digits = [] then none
      else if digits.all Char.isDigit then
        let n : Nat := digits.foldl (fun acc d => acc * 10 + (d.toNat - 48)) 0
        let v : Int := if neg then -(n : Int) else (n : Int)
        if -9223372036854775808 ≤ v ∧ v ≤ 9223372036854775807 then some v else none
      else none

/-- `parser.rs` `get_token`: a buffer flushed in string mode is a `String`
token; otherwise it is an `Integer` if it parses as an `i64` and a `Symbol`
otherwise. -/
def get_token (token : String) (is_str : Bool) : Token :=
  if is_str then .String token
  else
    match parseI64 token with
    | some n => .Integer n
    | none => .Symbol token

/-- `parser.rs` `TokenizerState`. -/
structure TokenizerState where
  tokens : List (Nat × Token)
  buffer : String
  quoting : Bool
deriving DecidableEq, Repr

/-- `TokenizerState::push_buffer`: flush a non-empty pending buffer as one
token positioned at the buffer's starting byte offset. -/
def push_buffer (st : TokenizerState) (index : Nat) (treat_as_str : Bool) : TokenizerState :=
  if st.buffer.isEmpty then st
  else
    { st with
      tokens := st.tokens ++ [(index - st.buffer.utf8ByteSize, get_token st.buffer treat_as_str)],
      buffer := "" }

/-- `TokenizerState::try_push`: in string mode the character joins the buffer
and nothing is emitted; otherwise the pending buffer is flushed and the caller
may emit its own token. -/
def try_push (st : TokenizerState) (c : Char) (index : Nat) : TokenizerState × Bool :=
  if st.quoting then ({ st with buffer := st.buffer.push c }, false)
  else (push_buffer st index false, true)

/-- `TokenizerState::try_push_with`. -/
def try_push_with (st : TokenizerState) (c : Char) (index : Nat) (w : Token) : TokenizerState :=
  match try_push st c index with
  | (st1, pushed) => if pushed then { st1 with tokens := st1.tokens ++ [(index, w)] } else st1

/-- The character loop of `parser.rs` `tokenize`; `i` is the byte offset of the
head character, mirroring `char_indices`. -/
def tokenize_go (cs : List Char) (i : Nat) (st : TokenizerState) : TokenizerState :=
  match cs with
  | [] => st
  | c :: rest =>
    let st1 :=
      if c = '\'' then
        let stq := push_buffer st i st.quoting
        { stq with quoting := !stq.quoting }
      else if c = '(' then try_push_with st c i .LeftParen
      else if c = ')' then try_push_with st c i .RightParen
      else if rustIsWhitespace c then (try_push st c i).1
      else { st with buffer := st.buffer.push c }
    tokenize_go rest (i + c.utf8Size) st1

/-- `parser.rs` `tokenize`: positioned token stream of the input; the final
`push_buffer(text.len(), false)` flushes any pending buffer with
`treat_as_str = false`. -/
def tokenize (text : String) : List (Nat × Token) :=
  let fin := tokenize_go text.data 0 { tokens := [], buffer := "", quoting := false }
  (push_buffer fin text.utf8ByteSize false).tokens

/- ## Parser (`parser.rs`) -/

/-- Discriminant of a token; `PartialEq for Token` compares only these. -/
def tokenTag : Token → Nat
  | .LeftParen => 0
  | .RightParen => 1
  | .Symbol _ => 2
  | .Integer _ => 3
  | .String _ => 4

/-- `impl PartialEq for Token`: `mem::discriminant` equality, payloads
ignored. -/
def tokenEq (a b : Token) : Bool := tokenTag a == tokenTag b

/-- `parser.rs` `expect`: consume one token and require its discriminant. -/
def expect (ts : List (Nat × Token)) (expected : Token) : PRes (List (Nat × Token)) :=
  match ts with
  | [] => .err (.ExpectedGotEof expected)
  | (i, t) :: rest => if tokenEq t expected then .ok rest else .err (.ExpectedGot i expected t)

/-- `parser.rs` `translate_symbol`: the literal names `true`, `false` and `nil`
parse to their values rather than to symbols. -/
def translate_symbol (symbol : String) : Ast :=
  match symbol with
  | "true" => .Boolean true
  | "false" => .Boolean false
  | "nil" => .Nil
  | other => .Symbol other

/-- `parser.rs` `parse_atom`: consume exactly one token; a paren here is the
`panic!("wtf")` case. -/
def parse_atom (ts : List (Nat × Token)) : PRes (Ast × List (Nat × Token)) :=
  match ts with
  | [] => .err .ExpectedAnyGotEof
  | (_, t) :: rest =>
    match t with
    | .LeftParen => .panic "wtf"
    | .RightParen => .panic "wtf"
    | .Symbol s => .ok (translate_symbol s, rest)
    | .Integer n => .ok (.Integer n, rest)
    | .String s => .ok (.String s, rest)

mutual

/-- `parser.rs` `parse_any`: one token of lookahead — a left paren starts a
list, anything else is an atom.  Each recursive call consumes fuel; the
wrapper supplies enough fuel for any token list, so `fuel = 0` (reported as
`ExpectedAnyGotEof`) is unreachable from `ast_from_str`. -/
def parse_any : (fuel : Nat) → List (Nat × Token) → PRes (Ast × List (Nat × Token))
  | 0, _ => .err .ExpectedAnyGotEof
  | fuel + 1, ts =>
    match ts with
    | [] => .err .ExpectedAnyGotEof
    | (_, t) :: _ => if tokenEq t .LeftParen then parse_list fuel ts else parse_atom ts
termination_by structural fuel => fuel

/-- `parser.rs` `parse_list`: consume `(`, parse items until the lookahead is
`)`, consume `)`. -/
def parse_list : (fuel : Nat) → List (Nat × Token) → PRes (Ast × List (Nat × Token))
  | 0, _ => .err .ExpectedAnyGotEof
  | fuel + 1, ts =>
    match expect ts .LeftParen with
    | .err e => .err e
    | .panic m => .panic m
    | .ok ts1 =>
      match parse_items fuel ts1 with
      | .err e => .err e
      | .panic m => .panic m
      | .ok (items, ts2) =>
        match expect ts2 .RightParen with
        | .err e => .err e
        | .panic m => .panic m
        | .ok ts3 => .ok (.List items, ts3)
termination_by structural fuel => fuel

/-- The `while *peek(it)? != Token::RightParen` loop of `parse_list`. -/
def parse_items : (fuel : Nat) → List (Nat × Token) → PRes (List Ast × List (Nat × Token))
  | 0, _ => .err .ExpectedAnyGotEof
  | fuel + 1, ts =>
    match ts with
    | [] => .err .ExpectedAnyGotEof
    | (_, t) :: _ =>
      if tokenEq t .RightParen then .ok ([], ts)
      else
        match parse_any fuel ts with
        | .err e => .err e
        | .panic m => .panic m
        | .ok (a, ts1) =>
          match parse_items fuel ts1 with
          | .err e => .err e
          | .panic m => .panic m
          | .ok (items, ts2) => .ok (a :: items, ts2)
termination_by structural fuel => fuel

end

/-- Rust `str::trim` (Unicode whitespace from both ends). -/
def rustTrim (s : String) : String :=
  ⟨((s.data.dropWhile rustIsWhitespace).reverse.dropWhile rustIsWhitespace).reverse⟩

/-- `impl FromStr for Ast`: tokenize the trimmed input and parse exactly one
top-level form, ignoring trailing tokens.  The fuel is ample: parsing consumes
at least one token across every two nested calls. -/
def ast_from_str (s : String) : PRes Ast :=
  let tokens := tokenize (rustTrim s)
  match parse_any (4 * tokens.length + 8) tokens with
  | .ok (a, _) => .ok a
  | .err e => .err e
  | .panic m => .panic m

/- ## Builtin library (`root_env.rs`) -/

/-- `i64::MIN`. -/
def i64Min : Int := -9223372036854775808

/-- `i64::MAX`. -/
def i64Max : Int := 9223372036854775807

/-- Two's-complement wrap-around into the `i64` range: the result of a Rust
`i64` addition, subtraction or multiplication in a release build, and equal to
the exact result whenever that result is in range.  A debug build panics on
the (out-of-range) overflow case instead; the arithmetic theorems below assert
result values only under in-range hypotheses, where the two build modes agree,
and such overflows cannot arise from program-representable integers in the
tail-recursion claim. -/
def wrap64 (z : Int) : Int :=
  (z + 9223372036854775808) % 18446744073709551616 - 9223372036854775808

/-- `root_env.rs` `get_int`. -/
def get_int (ast : Ast) (pos : Nat) (fn_name : String) : Except ParserError Int :=
  match ast with
  | .Integer n => .ok n
  | a => .error (.TypeMismatch fn_name pos "Integer" a)

/-- `root_env.rs` `get_str`. -/
def get_str (ast : Ast) (pos : Nat) (fn_name : String) : Except ParserError String :=
  match ast with
  | .String s => .ok s
  | a => .error (.TypeMismatch fn_name pos "String" a)

/-- `root_env.rs` `get_atom`. -/
def get_atom (ast : Ast) (pos : Nat) (fn_name : String) : Except ParserError Nat :=
  match ast with
  | .Atom i => .ok i
  | a => .error (.TypeMismatch fn_name pos "Atom" a)

/-- `root_env.rs` `get_fun`: the `UserFunction` payload. -/
def get_fun (ast : Ast) (pos : Nat) (fn_name : String) :
    Except ParserError (List String × Ast × Nat) :=
  match ast with
  | .Function params body env => .ok (params, body, env)
  | a => .error (.TypeMismatch fn_name pos "Function" a)

/-- `root_env.rs` `add`: pop the last argument as `b` (type-checked as position
2), then pop the next as `a` (position 1); a pop of an empty vector is the
`unwrap` panic.  `a + b` is `i64` addition, modelled by `wrap64`. -/
def add (name : String) (args : List Ast) (st : State) : EvalRes Ast :=
  match popBack args with
  | none => .panic "unwrap"
  | some (bAst, rest) =>
    match get_int bAst 2 name with
    | .error e => .err (.ParserError e)
    | .ok b =>
      match popBack rest with
      | none => .panic "unwrap"
      | some (aAst, _) =>
        match get_int aAst 1 name with
        | .error e => .err (.ParserError e)
        | .ok a => .ok (.Integer (wrap64 (a + b))) st

/-- `root_env.rs` `sub` (`i64` subtraction, modelled by `wrap64`). -/
def sub (name : String) (args : List Ast) (st : State) : EvalRes Ast :=
  match popBack args with
  | none => .panic "unwrap"
  | some (bAst, rest) =>
    match get_int bAst 2 name with
    | .error e => .err (.ParserError e)
    | .ok b =>
      match popBack rest with
      | none => .panic "unwrap"
      | some (aAst, _) =>
        match get_int aAst 1 name with
        | .error e => .err (.ParserError e)
        | .ok a => .ok (.Integer (wrap64 (a - b))) st

/-- `root_env.rs` `mult` (`i64` multiplication, modelled by `wrap64`). -/
def mult (name : String) (args : List Ast) (st : State) : EvalRes Ast :=
  match popBack args with
  | none => .panic "unwrap"
  | some (bAst, rest) =>
    match get_int bAst 2 name with
    | .error e => .err (.ParserError e)
    | .ok b =>
      match popBack rest with
      | none => .panic "unwrap"
      | some (aAst, _) =>
        match get_int aAst 1 name with
        | .error e => .err (.ParserError e)
        | .ok a => .ok (.Integer (wrap64 (a * b))) st

/-- `root_env.rs` `div`: Rust `/` on `i64` truncates toward zero, panics on
division by zero, and panics on the overflowing `i64::MIN / -1` — both checks
are unconditional, present in every build mode. -/
def div (name : String) (args : List Ast) (st : State) : EvalRes Ast :=
  match popBack args with
  | none => .panic "unwrap"
  | some (bAst, rest) =>
    match get_int bAst 2 name with
    | .error e => .err (.ParserError e)
    | .ok b =>
      match popBack rest with
      | none => .panic "unwrap"
      | some (aAst, _) =>
        match get_int aAst 1 name with
        | .error e => .err (.ParserError e)
        | .ok a =>
          if b = 0 then .panic "attempt to divide by zero"
          else if a = i64Min ∧ b = -1 then .panic "attempt to divide with overflow"
          else .ok (.Integer (a.tdiv b)) st

/-- `root_env.rs` `prn` (the `println!` side effect is outside the core
contract and dropped). -/
def prn (_name : String) (args : List Ast) (st : State) : EvalRes Ast :=
  match popBack args with
  | none => .panic "unwrap"
  | some _ => .ok .Nil st

/-- `root_env.rs` `op_eq`: pop the last two arguments; differing
`mem::discriminant`s give `false`; then only `Integer` and `Boolean` payloads
are compared, every other variant falling into the catch-all `false` arm. -/
def op_eq (_name : String) (args : List Ast) (st : State) : EvalRes Ast :=
  match popBack args with
  | none => .panic "unwrap"
  | some (b, rest) =>
    match popBack rest with
    | none => .panic "unwrap"
    | some (a, _) =>
      if astTag a ≠ astTag b then .ok (.Boolean false) st
      else
        match a with
        | .Integer an =>
          match b with
          | .Integer bn => .ok (.Boolean (an == bn)) st
          | _ => .ok (.Boolean false) st
        | .Boolean ab =>
          match b with
          | .Boolean bb => .ok (.Boolean (ab == bb)) st
          | _ => .ok (.Boolean false) st
        | _ => .ok (.Boolean false) st

/-- `root_env.rs` `op_lt`. -/
def op_lt (_name : String) (args : List Ast) (st : State) : EvalRes Ast :=
  match popBack args with
  | none => .panic "unwrap"
  | some (b, rest) =>
    match popBack rest with
    | none => .panic "unwrap"
    | some (a, _) =>
      if astTag a ≠ astTag b then .ok (.Boolean false) st
      else
        match a with
        | .Integer an =>
          match b with
          | .Integer bn => .ok (.Boolean (decide (an < bn))) st
          | _ => .ok (.Boolean false) st
        | _ => .ok (.Boolean false) st

/-- `root_env.rs` `list`. -/
def list (_name : String) (args : List Ast) (st : State) : EvalRes Ast :=
  .ok (.List args) st

/-- `root_env.rs` `list_q`. -/
def list_q (_name : String) (args : List Ast) (st : State) : EvalRes Ast :=
  match popBack args with
  | none => .panic "unwrap"
  | some (a, _) =>
    .ok (.Boolean (match a with | .List _ => true | _ => false)) st

/-- `root_env.rs` `empty_q`. -/
def empty_q (_name : String) (args : List Ast) (st : State) : EvalRes Ast :=
  match popBack args with
  | none => .panic "unwrap"
  | some (a, _) =>
    .ok (.Boolean (match a with | .List [] => true | _ => false)) st

/-- `root_env.rs` `count`: length of a list, `0` for anything else. -/
def count (_name : String) (args : List Ast) (st : State) : EvalRes Ast :=
  match popBack args with
  | none => .panic "unwrap"
  | some (a, _) =>
    .ok (.Integer (match a with | .List xs => (xs.length : Int) | _ => 0)) st

/-- The `enumerate` loop of `root_env.rs` `concat_str`. -/
def concat_go (name : String) (args : List Ast) (i : Nat) (acc : String) :
    Except ParserError String :=
  match args with
  | [] => .ok acc
  | a :: rest =>
    match get_str a (i + 1) name with
    | .error e => .error e
    | .ok s => concat_go name rest (i + 1) (acc ++ s)

/-- `root_env.rs` `concat_str`. -/
def concat_str (name : String) (args : List Ast) (st : State) : EvalRes Ast :=
  match concat_go name args 0 "" with
  | .error e => .err (.ParserError e)
  | .ok s => .ok (.String s) st

/-- `root_env.rs` `slurp` reads a file from the host filesystem; the embedding
has no filesystem, so the `fs::read_to_string` call is modelled by its failure
branch, an `io::Error` propagated into `ReplError::IoError`.  No claim treated
here depends on a successful read. -/
def slurp (name : String) (args : List Ast) (_st : State) : EvalRes Ast :=
  match popBack args with
  | none => .panic "unwrap"
  | some (a, _) =>
    match get_str a 1 name with
    | .error e => .err (.ParserError e)
    | .ok _ => .err .IoError

/-- `root_env.rs` `read_str`: parse the string argument with the full
tokenizer and parser. -/
def read_str (name : String) (args : List Ast) (st : State) : EvalRes Ast :=
  match popBack args with
  | none => .panic "unwrap"
  | some (a, _) =>
    match get_str a 1 name with
    | .error e => .err (.ParserError e)
    | .ok s =>
      match ast_from_str s with
      | .ok ast => .ok ast st
      | .err e => .err (.ParserError e)
      | .panic m => .panic m

/-- `root_env.rs` `atom`: allocate a fresh mutable cell. -/
def atom (_name : String) (args : List Ast) (st : State) : EvalRes Ast :=
  match popBack args with
  | none => .panic "unwrap"
  | some (a, _) => .ok (.Atom st.atoms.length) { st with atoms := st.atoms ++ [a] }

/-- `root_env.rs` `atom_q`. -/
def atom_q (_name : String) (args : List Ast) (st : State) : EvalRes Ast :=
  match popBack args with
  | none => .panic "unwrap"
  | some (a, _) =>
    .ok (.Boolean (match a with | .Atom _ => true | _ => false)) st

/-- `root_env.rs` `deref` (the non-atom case is a `todo!`). -/
def deref (_name : String) (args : List Ast) (st : State) : EvalRes Ast :=
  match popBack args with
  | none => .panic "unwrap"
  | some (a, _) =>
    match a with
    | .Atom aId =>
      match st.atoms.get? aId with
      | some v => .ok v st
      | none => .panic "invalid atom"
    | _ => .panic "Error: not an atom"

/-- `root_env.rs` `reset_m` (the non-atom case is a `todo!`). -/
def reset_m (_name : String) (args : List Ast) (st : State) : EvalRes Ast :=
  match popBack args with
  | none => .panic "unwrap"
  | some (val, rest) =>
    match popBack rest with
    | none => .panic "unwrap"
    | some (atomArg, _) =>
      match atomArg with
      | .Atom aId => .ok val { st with atoms := st.atoms.set aId val }
      | _ => .panic "Error: not an atom"

/-- `root_env.rs` `create_root_env`: the parentless frame holding every
builtin. -/
def create_root_env : Environment :=
  { values :=
      [("+", .Builtin "+"), ("-", .Builtin "-"), ("*", .Builtin "*"), ("/", .Builtin "/"),
       ("prn", .Builtin "prn"), ("=", .Builtin "="), ("<", .Builtin "<"),
       ("list", .Builtin "list"), ("list?", .Builtin "list?"), ("empty?", .Builtin "empty?"),
       ("count", .Builtin "count"), ("str", .Builtin "str"), ("slurp", .Builtin "slurp"),
       ("read-str", .Builtin "read-str"), ("atom", .Builtin "atom"), ("atom?", .Builtin "atom?"),
       ("deref", .Builtin "deref"), ("reset!", .Builtin "reset!"), ("swap!", .Builtin "swap!")],
    parent := none }

/-- The store at startup: the root environment alone, no atoms. -/
def initState : State := { envs := [create_root_env], atoms := [] }

/-- `eval.rs` `eval_symbol`. -/
def eval_symbol (s : String) (env : Nat) (st : State) : EvalRes Ast :=
  match lookup s env st with
  | .ok v => .ok v st
  | .error e => .err e

/-- `eval.rs` `eval_form_fun`: pop the body, then the parameter list; build a
closure capturing the current environment, without evaluating the body. -/
def eval_form_fun (args : List Ast) (env : Nat) : RRes Ast :=
  match popBack args with
  | none => .panic "unwrap"
  | some (body, args1) =>
    match popBack args1 with
    | none => .panic "unwrap"
    | some (paramsAst, _) =>
      match get_symbol_list paramsAst with
      | .ok params => .ok (.Function params body env)
      | .err e => .err e
      | .panic m => .panic m

/- ## Evaluator (`eval.rs`) -/

mutual

/-- `eval.rs` `eval`: the trampoline.  A list dispatches through `eval_list`
and either returns, or replaces the `(expr, env)` pair and iterates; a symbol
resolves through the environment chain; every other variant is
self-evaluating. -/
def eval : (fuel : Nat) → Ast → Nat → State → EvalRes Ast
  | 0, _, _, _ => .timeout
  | fuel + 1, ast, env, st =>
    match ast with
    | .List xs =>
      match eval_list fuel xs env st with
      | .ok (.ReturnImmediately a) st1 => .ok a st1
      | .ok (.LoopWithAst a) st1 => eval fuel a env st1
      | .ok (.LoopWithAstAndEnv a e) st1 => eval fuel a e st1
      | .err e => .err e
      | .panic m => .panic m
      | .timeout => .timeout
    | .Symbol s => eval_symbol s env st
    | a => .ok a st
termination_by structural fuel => fuel

/-- `eval.rs` `eval_list`: an empty list is `todo!("error: empty list")`; a
symbol head dispatches the special forms, everything else is a function
call. -/
def eval_list : (fuel : Nat) → List Ast → Nat → State → EvalRes EvalBehaviour
  | 0, _, _, _ => .timeout
  | fuel + 1, xs, env, st =>
    match xs with
    | [] => .panic "error: empty list"
    | x0 :: _ =>
      match x0 with
      | .Symbol s =>
        match s with
        | "def!" =>
          (eval_form_def fuel xs env st).bind fun a st1 => .ok (.ReturnImmediately a) st1
        | "let*" => do_form_let fuel xs env st
        | "letrec" => do_form_letrec fuel xs env st
        | "do" => do_form_do fuel xs env st
        | "if" =>
          (do_form_if fuel xs env st).bind fun a st1 => .ok (.LoopWithAst a) st1
        | "fun*" =>
          match eval_form_fun xs env with
          | .ok a => .ok (.ReturnImmediately a) st
          | .err e => .err e
          | .panic m => .panic m
        | "eval" =>
          match vecRemove xs 1 with
          | none => .panic "index out of bounds"
          | some (e1, _) =>
            (eval fuel e1 env st).bind fun r st1 =>
              .ok (.LoopWithAstAndEnv r (get_root env st1)) st1
        | _ => eval_func_call fuel xs env st
      | _ => eval_func_call fuel xs env st
termination_by structural fuel => fuel

/-- `eval.rs` `eval_form_def`: pop the definition, then the name; evaluate the
definition in the current environment and insert the value into the current
frame, returning it. -/
def eval_form_def : (fuel : Nat) → List Ast → Nat → State → EvalRes Ast
  | 0, _, _, _ => .timeout
  | fuel + 1, args, env, st =>
    match popBack args with
    | none => .panic "unwrap"
    | some (definition, args1) =>
      match popBack args1 with
      | none => .panic "unwrap"
      | some (nameAst, _) =>
        match get_symbol_name nameAst with
        | .error e => .err e
        | .ok name =>
          (eval fuel definition env st).bind fun v st1 =>
            match st1.envs.get? env with
            | none => .panic "invalid env"
            | some f =>
              .ok v { st1 with envs := st1.envs.set env { f with values := (name, v) :: f.values } }
termination_by structural fuel => fuel

/-- `eval.rs` `do_form_let`: pop the body, then the binding list; bind with
`rec = false` and tail-evaluate the body in the new environment. -/
def do_form_let : (fuel : Nat) → List Ast → Nat → State → EvalRes EvalBehaviour
  | 0, _, _, _ => .timeout
  | fuel + 1, args, env, st =>
    match popBack args with
    | none => .panic "unwrap"
    | some (expr, args1) =>
      match popBack args1 with
      | none => .panic "unwrap"
      | some (bindings, _) =>
        (bind_let fuel bindings env false st).bind fun nEnv st1 =>
          .ok (.LoopWithAstAndEnv expr nEnv) st1
termination_by structural fuel => fuel

/-- `eval.rs` `do_form_letrec`: as `do_form_let` with `rec = true`. -/
def do_form_letrec : (fuel : Nat) → List Ast → Nat → State → EvalRes EvalBehaviour
  | 0, _, _, _ => .timeout
  | fuel + 1, args, env, st =>
    match popBack args with
    | none => .panic "unwrap"
    | some (expr, args1) =>
      match popBack args1 with
      | none => .panic "unwrap"
      | some (bindings, _) =>
        (bind_let fuel bindings env true st).bind fun nEnv st1 =>
          .ok (.LoopWithAstAndEnv expr nEnv) st1
termination_by structural fuel => fuel

/-- `eval.rs` `bind_let`: allocate one fresh child frame, then walk the binding
list (`todo!` when it is not a list). -/
def bind_let : (fuel : Nat) → Ast → Nat → Bool → State → EvalRes Nat
  | 0, _, _, _, _ => .timeout
  | fuel + 1, ast, env, recFlag, st =>
    match allocEnv st { values := [], parent := some env } with
    | (st1, nEnv) =>
      match ast with
      | .List xs => bind_let_go fuel xs "" true env nEnv recFlag st1
      | _ => .panic "error"
termination_by structural fuel => fuel

/-- The alternating symbol/value loop of `bind_let`: each value is evaluated
in the new environment when `recFlag` is set and in the outer environment
otherwise, and inserted into the new frame. -/
def bind_let_go : (fuel : Nat) → List Ast → String → Bool → Nat → Nat → Bool → State →
    EvalRes Nat
  | 0, _, _, _, _, _, _, _ => .timeout
  | fuel + 1, xs, symbol, getSym, env, nEnv, recFlag, st =>
    match xs with
    | [] => .ok nEnv st
    | x :: rest =>
      if getSym then
        match get_symbol_name x with
        | .error e => .err e
        | .ok s => bind_let_go fuel rest s false env nEnv recFlag st
      else
        (eval fuel x (if recFlag then nEnv else env) st).bind fun v st1 =>
          match st1.envs.get? nEnv with
          | none => .panic "invalid env"
          | some f =>
            bind_let_go fuel rest symbol true env nEnv recFlag
              { st1 with envs := st1.envs.set nEnv { f with values := (symbol, v) :: f.values } }
termination_by structural fuel => fuel

/-- `eval.rs` `do_form_do`: pop the last element (if any); evaluate the
remaining elements after the `do` symbol for effect; tail-evaluate the popped
element, or return `Nil` when nothing was popped. -/
def do_form_do : (fuel : Nat) → List Ast → Nat → State → EvalRes EvalBehaviour
  | 0, _, _, _ => .timeout
  | fuel + 1, args, env, st =>
    match popBack args with
    | none => .ok (.ReturnImmediately .Nil) st
    | some (last, args1) =>
      (eval_effects fuel (args1.drop 1) env st).bind fun _ st1 =>
        .ok (.LoopWithAst last) st1
termination_by structural fuel => fuel

/-- The `for arg in args.into_iter().skip(1)` loop of `do_form_do`: evaluate
each element in order, discarding the results. -/
def eval_effects : (fuel : Nat) → List Ast → Nat → State → EvalRes Unit
  | 0, _, _, _ => .timeout
  | fuel + 1, xs, env, st =>
    match xs with
    | [] => .ok () st
    | x :: rest => (eval fuel x env st).bind fun _ st1 => eval_effects fuel rest env st1
termination_by structural fuel => fuel

/-- `eval.rs` `do_form_if`: `remove(1)` the condition and evaluate it; any
value other than `Boolean(false)` selects the then-branch (`remove(1)` of the
remainder), `Boolean(false)` selects `remove(2)` of the remainder — out of
bounds when the form has no else expression. -/
def do_form_if : (fuel : Nat) → List Ast → Nat → State → EvalRes Ast
  | 0, _, _, _ => .timeout
  | fuel + 1, args, env, st =>
    match vecRemove args 1 with
    | none => .panic "index out of bounds"
    | some (condExpr, args1) =>
      (eval fuel condExpr env st).bind fun condition st1 =>
        let isTrue := match condition with
          | .Boolean b => b
          | _ => true
        if isTrue then
          match vecRemove args1 1 with
          | none => .panic "index out of bounds"
          | some (t, _) => .ok t st1
        else
          match vecRemove args1 2 with
          | none => .panic "index out of bounds"
          | some (f, _) => .ok f st1
termination_by structural fuel => fuel

/-- `eval.rs` `eval_func_call`: evaluate the head to a callable, evaluate the
arguments left to right, then either loop into a closure body under a fresh
`bind_fn` frame, invoke a builtin immediately, or hit the non-function
`todo!`. -/
def eval_func_call : (fuel : Nat) → List Ast → Nat → State → EvalRes EvalBehaviour
  | 0, _, _, _ => .timeout
  | fuel + 1, xs, env, st =>
    match xs with
    | [] => .panic "index out of bounds"
    | funAst :: rest =>
      (eval fuel funAst env st).bind fun funV st1 =>
        (eval_all fuel rest env st1).bind fun args st2 =>
          match funV with
          | .Function params body fenv =>
            match allocEnv st2 (bind_fn params args fenv) with
            | (st3, nEnv) => .ok (.LoopWithAstAndEnv body nEnv) st3
          | .Builtin name =>
            (apply_builtin fuel name args st2).bind fun v st3 => .ok (.ReturnImmediately v) st3
          | _ => .panic "error: attempted to call non-function"
termination_by structural fuel => fuel

/-- `eval.rs` `eval_all`: strict left-to-right evaluation of the argument
list. -/
def eval_all : (fuel : Nat) → List Ast → Nat → State → EvalRes (List Ast)
  | 0, _, _, _ => .timeout
  | fuel + 1, xs, env, st =>
    match xs with
    | [] => .ok [] st
    | x :: rest =>
      (eval fuel x env st).bind fun v st1 =>
        (eval_all fuel rest env st1).bind fun vs st2 => .ok (v :: vs) st2
termination_by structural fuel => fuel

/-- Invoke the native function paired with `name` in `create_root_env`
(`Ast::Builtin(name, cb)` stores the pointer next to the name, and every
reachable `Builtin` value comes from that table, so the name determines the
function). -/
def apply_builtin : (fuel : Nat) → String → List Ast → State → EvalRes Ast
  | 0, _, _, _ => .timeout
  | fuel + 1, name, args, st =>
    match name with
    | "+" => add name args st
    | "-" => sub name args st
    | "*" => mult name args st
    | "/" => div name args st
    | "prn" => prn name args st
    | "=" => op_eq name args st
    | "<" => op_lt name args st
    | "list" => list name args st
    | "list?" => list_q name args st
    | "empty?" => empty_q name args st
    | "count" => count name args st
    | "str" => concat_str name args st
    | "slurp" => slurp name args st
    | "read-str" => read_str name args st
    | "atom" => atom name args st
    | "atom?" => atom_q name args st
    | "deref" => deref name args st
    | "reset!" => reset_m name args st
    | "swap!" => swap_m fuel name args st
    | _ => .panic "unknown builtin"
termination_by structural fuel => fuel

/-- `root_env.rs` `swap_m`: type-check the closure (position 2) and the atom
(position 1), read the cell, run a full nested evaluation of the closure body
under a fresh `bind_fn` frame, store the result back, and return the atom. -/
def swap_m : (fuel : Nat) → String → List Ast → State → EvalRes Ast
  | 0, _, _, _ => .timeout
  | fuel + 1, name, args, st =>
    match popBack args with
    | none => .panic "unwrap"
    | some (funArg, args1) =>
      match get_fun funArg 2 name with
      | .error e => .err (.ParserError e)
      | .ok (params, body, fenv) =>
        match popBack args1 with
        | none => .panic "unwrap"
        | some (atomArg, _) =>
          match get_atom atomArg 1 name with
          | .error e => .err (.ParserError e)
          | .ok aId =>
            match st.atoms.get? aId with
            | none => .panic "invalid atom"
            | some content =>
              match allocEnv st (bind_fn params [content] fenv) with
              | (st1, nEnv) =>
                (eval fuel body nEnv st1).bind fun newVal st2 =>
                  .ok (.Atom aId) { st2 with atoms := st2.atoms.set aId newVal }
termination_by structural fuel => fuel

end

/-- `eval.rs` `eval` with the two fuel roles separated: `fsub` bounds the
host-recursive sub-evaluations performed inside one trampoline iteration
(i.e. the host call-stack), while `k` counts the iterations of the single
`loop` itself.  The body of one iteration is exactly `eval`'s. -/
def evalLoop (fsub : Nat) : (k : Nat) → Ast → Nat → State → EvalRes Ast
  | 0, _, _, _ => .timeout
  | k + 1, ast, env, st =>
    match ast with
    | .List xs =>
      match eval_list fsub xs env st with
      | .ok (.ReturnImmediately a) st1 => .ok a st1
      | .ok (.LoopWithAst a) st1 => evalLoop fsub k a env st1
      | .ok (.LoopWithAstAndEnv a e) st1 => evalLoop fsub k a e st1
      | .err e => .err e
      | .panic m => .panic m
      | .timeout => .timeout
    | .Symbol s => eval_symbol s env st
    | a => .ok a st

/-- The continuation applied by `eval`'s trampoline to the outcome of one
`eval_list` dispatch: return, or iterate with a new `(expr, env)` pair. -/
def behaviourCont (fuel : Nat) (env : Nat) (r : EvalRes EvalBehaviour) : EvalRes Ast :=
  match r with
  | .ok (.ReturnImmediately a) st1 => .ok a st1
  | .ok (.LoopWithAst a) st1 => eval fuel a env st1
  | .ok (.LoopWithAstAndEnv a e) st1 => eval fuel a e st1
  | .err e => .err e
  | .panic m => .panic m
  | .timeout => .timeout

/-- The continuation applied by the explicit trampoline `evalLoop` to the
outcome of one `eval_list` dispatch. -/
def loopCont (fsub k : Nat) (env : Nat) (r : EvalRes EvalBehaviour) : EvalRes Ast :=
  match r with
  | .ok (.ReturnImmediately a) st1 => .ok a st1
  | .ok (.LoopWithAst a) st1 => evalLoop fsub k a env st1
  | .ok (.LoopWithAstAndEnv a e) st1 => evalLoop fsub k a e st1
  | .err e => .err e
  | .panic m => .panic m
  | .timeout => .timeout

/- ## Observers and concrete programs -/

/-- The value of a successful outcome. -/
def valueOf {α : Type} : EvalRes α → Option α
  | .ok a _ => some a
  | _ => none

/-- The error of a failed outcome. -/
def errOf {α : Type} : EvalRes α → Option ReplError
  | .err e => some e
  | _ => none

/-- Whether an outcome is a host panic. -/
def isPanic {α : Type} : EvalRes α → Bool
  | .panic _ => true
  | _ => false

/-- `(let* (a 1 b (+ a 1)) b)`. -/
def progLetStar : Ast :=
  .List [.Symbol "let*",
    .List [.Symbol "a", .Integer 1, .Symbol "b", .List [.Symbol "+", .Symbol "a", .Integer 1]],
    .Symbol "b"]

/-- `(letrec (a 1 b (+ a 1)) b)`. -/
def progLetrec : Ast :=
  .List [.Symbol "letrec",
    .List [.Symbol "a", .Integer 1, .Symbol "b", .List [.Symbol "+", .Symbol "a", .Integer 1]],
    .Symbol "b"]

/-- `(do)`. -/
def progDoEmpty : Ast := .List [.Symbol "do"]

/-- `(= n 0)`, the condition of the tail-recursive counter. -/
def loopCond : Ast := .List [.Symbol "=", .Symbol "n", .Integer 0]

/-- `(loop (- n 1))`, the tail call of the counter. -/
def loopElse : Ast := .List [.Symbol "loop", .List [.Symbol "-", .Symbol "n", .Integer 1]]

/-- `(if (= n 0) 0 (loop (- n 1)))`, the body of the tail-recursive counter. -/
def loopBody : Ast := .List [.Symbol "if", loopCond, .Integer 0, loopElse]

/-- The closure value produced by `(fun* (n) (if (= n 0) 0 (loop (- n 1))))`
evaluated in the root environment. -/
def loopFunAst : Ast := .Function ["n"] loopBody 0

/-- `(def! loop (fun* (n) (if (= n 0) 0 (loop (- n 1)))))`. -/
def defLoopForm : Ast :=
  .List [.Symbol "def!", .Symbol "loop",
    .List [.Symbol "fun*", .List [.Symbol "n"], loopBody]]

/-- The store after evaluating `defLoopForm` at startup: the root frame now
also binds `loop`. -/
def stLoop : State :=
  { envs := [{ values := ("loop", loopFunAst) :: create_root_env.values, parent := none }],
    atoms := [] }

/-- `(do (def! f (fun* (x) x)) (f 1 2 3))`: a call with surplus arguments. -/
def progSurplus : Ast :=
  .List [.Symbol "do",
    .List [.Symbol "def!", .Symbol "f",
      .List [.Symbol "fun*", .List [.Symbol "x"], .Symbol "x"]],
    .List [.Symbol "f", .Integer 1, .Integer 2, .Integer 3]]

/-- `(do (def! x 99) (def! f (fun* (x) x)) (f))`: a call with a missing
argument whose parameter name is bound in the captured environment chain. -/
def progMissingBound : Ast :=
  .List [.Symbol "do",
    .List [.Symbol "def!", .Symbol "x", .Integer 99],
    .List [.Symbol "def!", .Symbol "f",
      .List [.Symbol "fun*", .List [.Symbol "x"], .Symbol "x"]],
    .List [.Symbol "f"]]

/-- `(do (def! g (fun* (y) y)) (g))`: a call with a missing argument whose
parameter name is bound nowhere. -/
def progMissingUnbound : Ast :=
  .List [.Symbol "do",
    .List [.Symbol "def!", .Symbol "g",
      .List [.Symbol "fun*", .List [.Symbol "y"], .Symbol "y"]],
    .List [.Symbol "g"]]

/-- `(do (def! x 1) (let* (x 2) (eval (read-str 'x'))))`: the dynamically
constructed `x` is re-evaluated in the root environment, not the lexical
one. -/
def progEvalDemo : Ast :=
  .List [.Symbol "do",
    .List [.Symbol "def!", .Symbol "x", .Integer 1],
    .List [.Symbol "let*", .List [.Symbol "x", .Integer 2],
      .List [.Symbol "eval", .List [.Symbol "read-str", .String "x"]]]]

/-- Specification-side scalar equality for the amended `=` claim: only
`Integer` and `Boolean` compare by payload, every other pair is `false`. -/
def eqSpec : Ast → Ast → Bool
  | .Integer a, .Integer b => a == b
  | .Boolean a, .Boolean b => a == b
  | _, _ => false

/-- The parent pointer of frame `e` (used to state what "root" means). -/
def parentOf (st : State) (e : Nat) : Option Nat :=
  match st.envs.get? e with
  | some f => f.parent
  | none => none

/-- Every parent pointer goes to an older (smaller-index) frame — the
invariant maintained by the allocator, under which the embedded `lookup` and
`get_root` agree with the Rust originals. -/
def WFEnvs (st : State) : Prop :=
  ∀ i f, st.envs.get? i = some f → ∀ p, f.parent = some p → p < i

/- ## Helper lemmas -/

theorem popBack_concat {α : Type} (ws : List α) (x : α) : popBack (ws ++ [x]) = some (x, ws) := by
  simp [popBack, List.reverse_append]

theorem frameLookup_cons (k : String) (v : Ast) (vs : List (String × Ast)) (s : String) :
    frameLookup ((k, v) :: vs) s = if k == s then some v else frameLookup vs s := by
  cases h : (k == s) <;> simp [frameLookup, List.find?, h]

theorem frameLookup_none_iff (vs : List (String × Ast)) (s : String) :
    frameLookup vs s = none ↔ ∀ p ∈ vs, p.1 ≠ s := by
  induction vs with
  | nil => simp [frameLookup, List.find?]
  | cons p rest ih =>
    obtain ⟨k, v⟩ := p
    rw [frameLookup_cons]
    by_cases h : k = s <;> simp [h, ih]

theorem frameLookup_append (l1 l2 : List (String × Ast)) (s : String) :
    frameLookup (l1 ++ l2) s =
      match frameLookup l1 s with
      | some v => some v
      | none => frameLookup l2 s := by
  induction l1 with
  | nil => simp [frameLookup, List.find?]
  | cons p rest ih =>
    obtain ⟨k, v⟩ := p
    rw [List.cons_append, frameLookup_cons, frameLookup_cons]
    by_cases h : (k == s) <;> simp [h, ih]

theorem foldl_cons_eq_reverse_append {α : Type} (L acc : List α) :
    L.foldl (fun vs p => p :: vs) acc = L.reverse ++ acc := by
  induction L generalizing acc with
  | nil => simp
  | cons a l ih => simp [List.foldl_cons, ih]

theorem zip_take_length {α β : Type} (ps : List α) (as : List β) :
    ps.zip as = ps.zip (as.take ps.length) := by
  induction ps generalizing as with
  | nil => simp
  | cons p ps ih =>
    cases as with
    | nil => simp
    | cons a as => simp [List.zip_cons_cons, ih as]

theorem map_fst_zip_take {α β : Type} (ps : List α) (as : List β) :
    (ps.zip as).map Prod.fst = ps.take as.length := by
  induction ps generalizing as with
  | nil => simp
  | cons p ps ih =>
    cases as with
    | nil => simp
    | cons a as => simp [List.zip_cons_cons, ih as]

theorem frameLookup_reverse_nodup (L : List (String × Ast)) (s : String) (v : Ast)
    (hnd : (L.map Prod.fst).Nodup) (hmem : (s, v) ∈ L) :
    frameLookup L.reverse s = some v := by
  induction L with
  | nil => cases hmem
  | cons p rest ih =>
    obtain ⟨k, w⟩ := p
    simp only [List.map_cons, List.nodup_cons] at hnd
    rw [List.reverse_cons, frameLookup_append]
    rcases List.mem_cons.mp hmem with heq | hrest
    · cases heq
      have hnone : frameLookup rest.reverse s = none := by
        rw [frameLookup_none_iff]
        intro q hq habs
        exact hnd.1 (habs ▸ List.mem_map_of_mem _ (List.mem_reverse.mp hq))
      rw [hnone, frameLookup_cons]
      simp
    · rw [ih hnd.2 hrest]

theorem get_int_non_integer (x : Ast) (pos : Nat) (name : String) (h : astTag x ≠ 1) :
    get_int x pos name = .error (.TypeMismatch name pos "Integer" x) := by
  cases x <;> first | rfl | simp [astTag] at h

theorem wrap64_bounds (z : Int) : i64Min ≤ wrap64 z ∧ wrap64 z ≤ i64Max := by
  unfold wrap64 i64Min i64Max
  omega

theorem wrap64_eq_self (z : Int) (h1 : i64Min ≤ z) (h2 : z ≤ i64Max) : wrap64 z = z := by
  unfold wrap64 i64Min i64Max at *
  omega

theorem wf_initState : WFEnvs initState := by
  intro i f hf p hp
  cases i with
  | zero =>
    simp only [initState, List.get?] at hf
    cases hf
    simp [create_root_env] at hp
  | succ n => simp [initState, List.get?] at hf

theorem eval_cons (fuel : Nat) (xs : List Ast) (env : Nat) (st : State) :
    eval (fuel + 1) (.List xs) env st = behaviourCont fuel env (eval_list fuel xs env st) := rfl

theorem get_root_go_spec (st : State) (hwf : WFEnvs st) :
    ∀ (fuel e : Nat), e < st.envs.length → e < fuel →
      parentOf st (get_root_go fuel e st) = none ∧
      Relation.ReflTransGen (fun a b => parentOf st a = some b) e (get_root_go fuel e st) := by
  intro fuel
  induction fuel with
  | zero => intro e _ h0; omega
  | succ f ih =>
    intro e he _
    obtain ⟨fr, hfr⟩ : ∃ fr, st.envs.get? e = some fr := by
      rw [List.get?_eq_get he]; exact ⟨_, rfl⟩
    simp only [get_root_go, hfr]
    cases hp : fr.parent with
    | none => exact ⟨by simp only [parentOf]; rw [hfr]; exact hp, .refl⟩
    | some p =>
      have hlt : p < e := hwf e fr hfr p hp
      obtain ⟨h1, h2⟩ := ih p (Nat.lt_trans hlt he) (by omega)
      exact ⟨h1, Relation.ReflTransGen.head (by simp only [parentOf]; rw [hfr]; exact hp) h2⟩

theorem evalLoop_cons (fsub k : Nat) (xs : List Ast) (env : Nat) (st : State) :
    evalLoop fsub (k + 1) (.List xs) env st = loopCont fsub k env (eval_list fsub xs env st) := rfl

theorem lookup_hit (s : String) (e : Nat) (st : State) (fr : Environment) (v : Ast)
    (he : st.envs.get? e = some fr) (hv : frameLookup fr.values s = some v) :
    lookup s e st = .ok v := by
  simp only [lookup, lookup_go, he, hv]

theorem lookup_parent0 (s : String) (e : Nat) (st : State) (fr rt : Environment) (v : Ast)
    (he : st.envs.get? e = some fr) (hmiss : frameLookup fr.values s = none)
    (hpar : fr.parent = some 0) (hpos : 0 < e)
    (hrt : st.envs.get? 0 = some rt) (hv : frameLookup rt.values s = some v) :
    lookup s e st = .ok v := by
  cases e with
  | zero => omega
  | succ e' => simp only [lookup, lookup_go, he, hmiss, hpar, hrt, hv]

/-- One trampoline iteration on the counter's body: the condition `(= n 0)`
is evaluated by a bounded nested evaluation and the selected branch is handed
back to the loop. -/
theorem loop_body_step (st : State) (e : Nat) (rt : Environment) (m : Int) (k : Nat) (b : Bool)
    (hrt : st.envs.get? 0 = some rt)
    (heq : frameLookup rt.values "=" = some (.Builtin "="))
    (he : st.envs.get? e = some ⟨[("n", .Integer m)], some 0⟩)
    (hpos : 0 < e)
    (hm : (m == 0) = b) :
    evalLoop 10 (k + 1) loopBody e st
      = evalLoop 10 k (if b = true then .Integer 0 else loopElse) e st := by
  have hsym : lookup "=" e st = .ok (.Builtin "=") :=
    lookup_parent0 "=" e st _ rt _ he rfl rfl hpos hrt heq
  have hn : lookup "n" e st = .ok (.Integer m) := lookup_hit "n" e st _ _ he rfl
  have h1 : eval 5 (.Symbol "=") e st = .ok (.Builtin "=") st := by
    show eval_symbol "=" e st = _
    simp only [eval_symbol, hsym]
  have h2 : eval 4 (.Symbol "n") e st = .ok (.Integer m) st := by
    show eval_symbol "n" e st = _
    simp only [eval_symbol, hn]
  have h3 : eval_all 5 [.Symbol "n", .Integer 0] e st = .ok [.Integer m, .Integer 0] st := by
    show EvalRes.bind (eval 4 (.Symbol "n") e st) _ = _
    rw [h2]; rfl
  have hcall : eval_func_call 6 [.Symbol "=", .Symbol "n", .Integer 0] e st
      = .ok (.ReturnImmediately (.Boolean (m == 0))) st := by
    show EvalRes.bind (eval 5 (.Symbol "=") e st) _ = _
    rw [h1]
    show EvalRes.bind (eval_all 5 [.Symbol "n", .Integer 0] e st) _ = _
    rw [h3]
    rfl
  have hcond : eval 8 loopCond e st = .ok (.Boolean (m == 0)) st := by
    rw [show (loopCond : Ast) = .List [.Symbol "=", .Symbol "n", .Integer 0] from rfl, eval_cons]
    rw [show eval_list 7 [.Symbol "=", .Symbol "n", .Integer 0] e st
        = eval_func_call 6 [.Symbol "=", .Symbol "n", .Integer 0] e st from rfl]
    rw [hcall]
    rfl
  have hif : do_form_if 9 [.Symbol "if", loopCond, .Integer 0, loopElse] e st
      = .ok (if b = true then .Integer 0 else loopElse) st := by
    show EvalRes.bind (eval 8 loopCond e st) _ = _
    rw [hcond, hm]
    cases b
    · rfl
    · rfl
  rw [show (loopBody : Ast) = .List [.Symbol "if", loopCond, .Integer 0, loopElse] from rfl,
    evalLoop_cons]
  rw [show eval_list 10 [.Symbol "if", loopCond, .Integer 0, loopElse] e st
      = EvalRes.bind (do_form_if 9 [.Symbol "if", loopCond, .Integer 0, loopElse] e st)
          (fun a s => .ok (.LoopWithAst a) s) from rfl]
  rw [hif]
  rfl

/-- One trampoline iteration on the counter's tail call `(loop (- n 1))`:
the callee and argument are evaluated by bounded nested evaluations, a fresh
call frame is allocated, and the closure body is handed back to the loop with
the new environment — no recursive use of the loop itself. -/
theorem loop_call_step (st : State) (e : Nat) (rt : Environment) (m : Int) (k : Nat)
    (hrt : st.envs.get? 0 = some rt)
    (hloop : frameLookup rt.values "loop" = some loopFunAst)
    (hsub : frameLookup rt.values "-" = some (.Builtin "-"))
    (he : st.envs.get? e = some ⟨[("n", .Integer m)], some 0⟩)
    (hpos : 0 < e) :
    evalLoop 10 (k + 1) loopElse e st
      = evalLoop 10 k loopBody st.envs.length
          { st with envs := st.envs ++ [⟨[("n", .Integer (wrap64 (m - 1)))], some 0⟩] } := by
  have hloopSym : lookup "loop" e st = .ok loopFunAst :=
    lookup_parent0 "loop" e st _ rt _ he rfl rfl hpos hrt hloop
  have hsubSym : lookup "-" e st = .ok (.Builtin "-") :=
    lookup_parent0 "-" e st _ rt _ he rfl rfl hpos hrt hsub
  have hn : lookup "n" e st = .ok (.Integer m) := lookup_hit "n" e st _ _ he rfl
  have d1 : eval 4 (.Symbol "-") e st = .ok (.Builtin "-") st := by
    show eval_symbol "-" e st = _
    simp only [eval_symbol, hsubSym]
  have d2 : eval 3 (.Symbol "n") e st = .ok (.Integer m) st := by
    show eval_symbol "n" e st = _
    simp only [eval_symbol, hn]
  have d3 : eval_all 4 [.Symbol "n", .Integer 1] e st = .ok [.Integer m, .Integer 1] st := by
    show EvalRes.bind (eval 3 (.Symbol "n") e st) _ = _
    rw [d2]; rfl
  have d4 : eval_func_call 5 [.Symbol "-", .Symbol "n", .Integer 1] e st
      = .ok (.ReturnImmediately (.Integer (wrap64 (m - 1)))) st := by
    show EvalRes.bind (eval 4 (.Symbol "-") e st) _ = _
    rw [d1]
    show EvalRes.bind (eval_all 4 [.Symbol "n", .Integer 1] e st) _ = _
    rw [d3]
    rfl
  have d5 : eval 7 (.List [.Symbol "-", .Symbol "n", .Integer 1]) e st
      = .ok (.Integer (wrap64 (m - 1))) st := by
    rw [eval_cons]
    rw [show eval_list 6 [.Symbol "-", .Symbol "n", .Integer 1] e st
        = eval_func_call 5 [.Symbol "-", .Symbol "n", .Integer 1] e st from rfl]
    rw [d4]
    rfl
  have d6 : eval 8 (.Symbol "loop") e st = .ok loopFunAst st := by
    show eval_symbol "loop" e st = _
    simp only [eval_symbol, hloopSym]
  have d7 : eval_all 8 [.List [.Symbol "-", .Symbol "n", .Integer 1]] e st
      = .ok [.Integer (wrap64 (m - 1))] st := by
    show EvalRes.bind (eval 7 (.List [.Symbol "-", .Symbol "n", .Integer 1]) e st) _ = _
    rw [d5]; rfl
  have d8 : eval_func_call 9 [.Symbol "loop", .List [.Symbol "-", .Symbol "n", .Integer 1]] e st
      = .ok (.LoopWithAstAndEnv loopBody st.envs.length)
          { st with envs := st.envs ++ [⟨[("n", .Integer (wrap64 (m - 1)))], some 0⟩] } := by
    show EvalRes.bind (eval 8 (.Symbol "loop") e st) _ = _
    rw [d6]
    show EvalRes.bind
      (eval_all 8 [.List [.Symbol "-", .Symbol "n", .Integer 1]] e st) _ = _
    rw [d7]
    rfl
  rw [show (loopElse : Ast)
      = .List [.Symbol "loop", .List [.Symbol "-", .Symbol "n", .Integer 1]] from rfl,
    evalLoop_cons]
  rw [show eval_list 10 [.Symbol "loop", .List [.Symbol "-", .Symbol "n", .Integer 1]] e st
      = eval_func_call 9 [.Symbol "loop", .List [.Symbol "-", .Symbol "n", .Integer 1]] e st
      from rfl]
  rw [d8]
  rfl

/-- The counter's body trampolines to `Integer 0` from any `i64`-range frame
value `m`, by induction on the distance `(m mod 2^64)` to zero: each pair of
iterations replaces `m` by `wrap64 (m - 1)`, which strictly decreases that
distance, while the nested-evaluation fuel stays the constant `10`. -/
theorem loop_runs_range : ∀ (d : Nat) (m : Int),
    (m % 18446744073709551616).toNat ≤ d →
    i64Min ≤ m → m ≤ i64Max →
    ∀ (st : State) (e : Nat) (rt : Environment),
    st.envs.get? 0 = some rt →
    frameLookup rt.values "loop" = some loopFunAst →
    frameLookup rt.values "=" = some (.Builtin "=") →
    frameLookup rt.values "-" = some (.Builtin "-") →
    st.envs.get? e = some ⟨[("n", .Integer m)], some 0⟩ →
    0 < e →
    ∃ k st', evalLoop 10 k loopBody e st = .ok (.Integer 0) st' := by
  intro d
  induction d with
  | zero =>
    intro m hd h1 h2 st e rt hrt hloop heq hsub he hpos
    have hm0 : m = 0 := by simp only [i64Min, i64Max] at h1 h2; omega
    subst hm0
    refine ⟨2, st, ?_⟩
    rw [loop_body_step st e rt 0 1 true hrt heq he hpos rfl]
    rfl
  | succ d ih =>
    intro m hd h1 h2 st e rt hrt hloop heq hsub he hpos
    by_cases hm0 : m = 0
    · subst hm0
      refine ⟨2, st, ?_⟩
      rw [loop_body_step st e rt 0 1 true hrt heq he hpos rfl]
      rfl
    · have hmb : (m == 0) = false := by rw [beq_eq_false_iff_ne]; exact hm0
      have hlen : 0 < st.envs.length := by
        cases hl : st.envs with
        | nil => rw [hl] at hrt; cases hrt
        | cons a l => simp [hl]
      have hrt2 : ({ st with
          envs := st.envs ++ [⟨[("n", .Integer (wrap64 (m - 1)))], some 0⟩] }
          : State).envs.get? 0 = some rt := by
        show (st.envs ++
          [(⟨[("n", .Integer (wrap64 (m - 1)))], some 0⟩ : Environment)]).get? 0 = some rt
        rw [List.get?_append hlen]
        exact hrt
      have he2 : ({ st with
          envs := st.envs ++ [⟨[("n", .Integer (wrap64 (m - 1)))], some 0⟩] }
          : State).envs.get? st.envs.length
          = some ⟨[("n", .Integer (wrap64 (m - 1)))], some 0⟩ := by
        show (st.envs ++
          [(⟨[("n", .Integer (wrap64 (m - 1)))], some 0⟩ : Environment)]).get?
          st.envs.length = some _
        exact List.get?_concat_length _ _
      have hw := wrap64_bounds (m - 1)
      have hdec : ((wrap64 (m - 1)) % 18446744073709551616).toNat ≤ d := by
        unfold wrap64 i64Min i64Max at *
        omega
      obtain ⟨k, st', hk⟩ := ih (wrap64 (m - 1)) hdec hw.1 hw.2
        { st with envs := st.envs ++ [⟨[("n", .Integer (wrap64 (m - 1)))], some 0⟩] }
        st.envs.length rt hrt2 hloop heq hsub he2 hlen
      refine ⟨k + 2, st', ?_⟩
      rw [loop_body_step st e rt m (k + 1) false hrt heq he hpos hmb,
        if_neg Bool.false_ne_true]
      rw [loop_call_step st e rt m k hrt hloop hsub he hpos]
      exact hk

/-- The counter trampolines to `Integer 0` for every `n : Nat`, from any
store whose root frame carries the builtins and the `loop` closure: the first
iteration pair reaches the `i64`-range value `wrap64 (n - 1)` and
`loop_runs_range` finishes, so only the iteration count grows with `n` while
the nested-evaluation fuel stays the constant `10`. -/
theorem loop_runs : ∀ (n : Nat) (st : State) (e : Nat) (rt : Environment),
    st.envs.get? 0 = some rt →
    frameLookup rt.values "loop" = some loopFunAst →
    frameLookup rt.values "=" = some (.Builtin "=") →
    frameLookup rt.values "-" = some (.Builtin "-") →
    st.envs.get? e = some ⟨[("n", .Integer (n : Int))], some 0⟩ →
    0 < e →
    ∃ k st', evalLoop 10 k loopBody e st = .ok (.Integer 0) st' := by
  intro n st e rt hrt hloop heq hsub he hpos
  by_cases hn0 : (n : Int) = 0
  · refine ⟨2, st, ?_⟩
    rw [loop_body_step st e rt (n : Int) 1 true hrt heq he hpos
      (by rw [beq_iff_eq]; exact hn0)]
    rfl
  · have hmb : ((n : Int) == 0) = false := by rw [beq_eq_false_iff_ne]; exact hn0
    have hlen : 0 < st.envs.length := by
      cases hl : st.envs with
      | nil => rw [hl] at hrt; cases hrt
      | cons a l => simp [hl]
    have hrt2 : ({ st with
        envs := st.envs ++ [⟨[("n", .Integer (wrap64 ((n : Int) - 1)))], some 0⟩] }
        : State).envs.get? 0 = some rt := by
      show (st.envs ++
        [(⟨[("n", .Integer (wrap64 ((n : Int) - 1)))], some 0⟩ : Environment)]).get? 0
        = some rt
      rw [List.get?_append hlen]
      exact hrt
    have he2 : ({ st with
        envs := st.envs ++ [⟨[("n", .Integer (wrap64 ((n : Int) - 1)))], some 0⟩] }
        : State).envs.get? st.envs.length
        = some ⟨[("n", .Integer (wrap64 ((n : Int) - 1)))], some 0⟩ := by
      show (st.envs ++
        [(⟨[("n", .Integer (wrap64 ((n : Int) - 1)))], some 0⟩ : Environment)]).get?
        st.envs.length = some _
      exact List.get?_concat_length _ _
    have hw := wrap64_bounds ((n : Int) - 1)
    obtain ⟨k, st', hk⟩ := loop_runs_range
      ((wrap64 ((n : Int) - 1)) % 18446744073709551616).toNat
      (wrap64 ((n : Int) - 1)) (le_refl _) hw.1 hw.2
      { st with envs := st.envs ++ [⟨[("n", .Integer (wrap64 ((n : Int) - 1)))], some 0⟩] }
      st.envs.length rt hrt2 hloop heq hsub he2 hlen
    refine ⟨k + 2, st', ?_⟩
    rw [loop_body_step st e rt (n : Int) (k + 1) false hrt heq he hpos hmb,
      if_neg Bool.false_ne_true]
    rw [loop_call_step st e rt (n : Int) k hrt hloop hsub he hpos]
    exact hk

/- ## Claims -/

/-- C1, counterexample: `(let* (a 1 b (+ a 1)) b)` started in the root
environment (where `a` and `b` are unbound) does not return `Integer(2)`; it
fails with `SymbolUndefined "a"`, because `bind_let` with `rec = false`
evaluates every binding value in the outer environment. -/
theorem let_star_seq_visibility_fails :
    errOf (eval 30 progLetStar 0 initState) = some (.SymbolUndefined "a") ∧
    valueOf (eval 30 progLetStar 0 initState) = none := ⟨rfl, rfl⟩

/-- C1, amended: `let*` creates one new child environment and binds each `ni`
sequentially, but each `vi` is evaluated in the *outer* environment, not the
accumulating one, so a later `vi` cannot reference an earlier `nj`; the
accumulating behaviour belongs to `letrec`.  Concretely
`(let* (a 1 b (+ a 1)) b)` fails with `SymbolUndefined "a"` while
`(letrec (a 1 b (+ a 1)) b)` returns `Integer(2)`; in general, a
single-binding `let*` form evaluates the value in the outer environment `env`
(while the fresh child frame `st.envs.length` already exists) and tail-evaluates
the body in that child. -/
theorem let_star_binds_in_outer_env :
    (errOf (eval 30 progLetStar 0 initState) = some (.SymbolUndefined "a")) ∧
    (valueOf (eval 30 progLetrec 0 initState) = some (.Integer 2)) ∧
    (∀ (f : Nat) (x : String) (v body : Ast) (env : Nat) (st st2 : State) (w : Ast),
      eval (f + 1) v env { st with envs := st.envs ++ [{ values := [], parent := some env }] }
        = .ok w st2 →
      st2.envs.get? st.envs.length = some { values := [], parent := some env } →
      eval (f + 7) (.List [.Symbol "let*", .List [.Symbol x, v], body]) env st
        = eval (f + 6) body st.envs.length
            { st2 with envs := st2.envs.set st.envs.length ⟨[(x, w)], some env⟩ }) := by
  refine ⟨rfl, rfl, ?_⟩
  intro f x v body env st st2 w h1 h2
  simp only [eval, eval_list, do_form_let, bind_let, bind_let_go, allocEnv, EvalRes.bind, popBack,
    List.reverse_cons, List.reverse_nil, List.nil_append, List.cons_append, List.reverse_append,
    get_symbol_name, Bool.false_eq_true, if_true, if_false, ite_true, ite_false] at h1 ⊢
  rw [h1]
  simp only [h2]

/-- C1, witness for the amended theorem: `(let* (a 1) a)` from the root
environment returns `1` from the fresh child frame. -/
theorem let_star_binds_in_outer_env_witness :
    eval 7 (.List [.Symbol "let*", .List [.Symbol "a", .Integer 1], .Symbol "a"]) 0 initState
      = .ok (.Integer 1) ⟨[create_root_env, ⟨[("a", .Integer 1)], some 0⟩], []⟩ := by
  have h := let_star_binds_in_outer_env.2.2 0 "a" (.Integer 1) (.Symbol "a") 0 initState
    ⟨[create_root_env, ⟨[], some 0⟩], []⟩ (.Integer 1) rfl rfl
  exact h.trans rfl

/-- C2, counterexample: `=` applied to two equal `List` values and to two
equal `String` values returns `Boolean(false)`, not the structural/by-value
`true` the claim asserts — both variants fall into `op_eq`'s catch-all
arm. -/
theorem op_eq_structural_equality_fails :
    valueOf (op_eq "=" [.List [], .List []] initState) = some (.Boolean false) ∧
    valueOf (op_eq "=" [.String "abc", .String "abc"] initState) = some (.Boolean false) :=
  ⟨rfl, rfl⟩

/-- C2, amended: on two arguments, the builtin `=` compares only `Integer` and
`Boolean` payloads by value; every other pair — including two `List`s, two
`String`s, two `Nil`s, or any two values of different runtime tags — yields
`Boolean(false)`. -/
theorem op_eq_scalar_only :
    ∀ (name : String) (a b : Ast) (st : State),
      op_eq name [a, b] st = .ok (.Boolean (eqSpec a b)) st := by
  intro name a b st
  cases a <;> cases b <;> rfl

/-- C3: `(do)` does not return `Nil`: `args.pop()` removes the `do` symbol
itself (the `Nil` arm is unreachable), so the symbol `do` is tail-evaluated
and fails as `SymbolUndefined "do"`.  For a non-empty body the claim's
remainder holds: the leading expressions are evaluated in order for effect and
the last is tail-evaluated. -/
theorem do_empty_evaluates_do_symbol :
    (errOf (eval 5 progDoEmpty 0 initState) = some (.SymbolUndefined "do")) ∧
    (valueOf (eval 5 progDoEmpty 0 initState) = none) ∧
    (∀ (f : Nat) (e1 e2 : Ast) (env : Nat) (st st1 : State) (v1 : Ast),
      eval (f + 1) e1 env st = .ok v1 st1 →
      eval (f + 5) (.List [.Symbol "do", e1, e2]) env st = eval (f + 4) e2 env st1) := by
  refine ⟨rfl, rfl, ?_⟩
  intro f e1 e2 env st st1 v1 h1
  rw [eval_cons]
  rw [show eval_list (f + 4) [.Symbol "do", e1, e2] env st
      = EvalRes.bind (eval_effects (f + 2) [e1] env st)
          (fun _ s => .ok (.LoopWithAst e2) s) from rfl]
  rw [show eval_effects (f + 2) [e1] env st
      = EvalRes.bind (eval (f + 1) e1 env st) (fun _ s => eval_effects (f + 1) [] env s) from rfl]
  rw [h1]
  rfl

/-- C3, witness: `(do 1 7)` evaluates `1` for effect and returns `7`. -/
theorem do_empty_evaluates_do_symbol_witness :
    eval 5 (.List [.Symbol "do", .Integer 1, .Integer 7]) 0 initState
      = .ok (.Integer 7) initState := by
  have h := do_empty_evaluates_do_symbol.2.2 0 (.Integer 1) (.Integer 7) 0 initState initState
    (.Integer 1) rfl
  exact h.trans rfl

/-- C4, counterexample: an unterminated quote is *not* flushed as a `String`
token — the final `push_buffer(text.len(), false)` classifies the pending
buffer as `Integer` or `Symbol`: `'12` tokenizes to an `Integer` token and
`'abc` to a `Symbol` token. -/
theorem unterminated_quote_not_string_token :
    tokenize "'12" = [(1, Token.Integer 12)] ∧
    tokenize "'abc" = [(1, Token.Symbol "abc")] := ⟨rfl, rfl⟩

/-- C4, amended: a quote character toggles string mode, and while the mode is
active every character — parens and whitespace included — is accumulated
literally into the pending buffer, which is flushed as a `String` token when a
closing quote ends the mode; but an input whose quote is never terminated has
its buffer flushed at end of input with `treat_as_str = false`, producing an
`Integer` or `Symbol` token instead of a `String` token. -/
theorem quote_toggle_string_mode :
    (tokenize "'a b' c" = [(1, Token.String "a b"), (6, Token.Symbol "c")]) ∧
    (tokenize "'a(b'" = [(1, Token.String "a(b")]) ∧
    (tokenize "(a 'b c')" = [(0, Token.LeftParen), (1, Token.Symbol "a"),
      (4, Token.String "b c"), (8, Token.RightParen)]) ∧
    (tokenize "'12" = [(1, Token.Integer 12)]) ∧
    (∀ (cs : List Char) (c : Char) (i : Nat) (st : TokenizerState),
      st.quoting = true → c ≠ '\'' →
      tokenize_go (c :: cs) i st
        = tokenize_go cs (i + c.utf8Size) { st with buffer := st.buffer.push c }) := by
  refine ⟨rfl, rfl, rfl, rfl, ?_⟩
  intro cs c i st hq hne
  simp only [tokenize_go]
  split_ifs with h1 h2 h3 h4
  · exact absurd h1 hne
  all_goals simp [try_push_with, try_push, hq]

/-- C4, witness: in string mode a left paren joins the buffer and emits no
token. -/
theorem quote_toggle_string_mode_witness :
    tokenize_go ['('] 5 ⟨[], "x", true⟩
      = tokenize_go [] (5 + '('.utf8Size) ⟨[], String.push "x" '(', true⟩ :=
  quote_toggle_string_mode.2.2.2.2 [] '(' 5 ⟨[], "x", true⟩ rfl (by decide)

/-- C5: evaluating the empty list `List([])` does not produce a recoverable
`EvalError` — `eval_list` hits `todo!("error: empty list")`, a host panic that
aborts the process instead of being reported to the driver. -/
theorem empty_list_eval_panics :
    ∀ (f env : Nat) (st : State), eval (f + 2) (.List []) env st = .panic "error: empty list" := by
  intro f env st
  simp only [eval, eval_list]

/-- C6, counterexample: the claim's "any later reference to them fails as an
unresolved symbol" is false — after `(def! x 99)` and
`(def! f (fun* (x) x))`, the zero-argument call `(f)` leaves `x` unbound in
the call frame, and the body's reference to `x` falls through to the captured
environment chain and returns `99` rather than failing. -/
theorem missing_arg_reference_can_resolve :
    valueOf (eval 40 progMissingBound 0 initState) = some (.Integer 99) := rfl

/-- C6, amended: applying a closure builds one fresh frame whose parent is the
closure's captured environment, binding parameters to arguments positionally
by `zip` with no arity check: surplus arguments are silently dropped, and
missing arguments leave the parameter out of the new frame entirely, so a
later reference to it resolves through the captured environment chain and
fails as an unresolved symbol only when it is unbound there as well. -/
theorem bind_fn_zip_semantics :
    (∀ (params : List String) (args : List Ast) (env : Nat),
      bind_fn params args env = bind_fn params (args.take params.length) env) ∧
    (∀ (params : List String) (args : List Ast) (env : Nat),
      (bind_fn params args env).parent = some env) ∧
    (∀ (params : List String) (args : List Ast) (env : Nat) (s : String),
      s ∉ params.take args.length → frameLookup (bind_fn params args env).values s = none) ∧
    (∀ (params : List String) (args : List Ast) (env : Nat) (s : String) (v : Ast),
      params.Nodup → (s, v) ∈ params.zip args →
      frameLookup (bind_fn params args env).values s = some v) ∧
    (valueOf (eval 40 progSurplus 0 initState) = some (.Integer 1)) ∧
    (errOf (eval 40 progMissingUnbound 0 initState) = some (.SymbolUndefined "y")) := by
  refine ⟨?_, fun _ _ _ => rfl, ?_, ?_, rfl, rfl⟩
  · intro params args env
    simp only [bind_fn, ← zip_take_length]
  · intro params args env s hs
    simp only [bind_fn, foldl_cons_eq_reverse_append, List.append_nil]
    rw [frameLookup_none_iff]
    intro q hq habs
    have : q.1 ∈ (params.zip args).map Prod.fst :=
      List.mem_map_of_mem _ (List.mem_reverse.mp hq)
    rw [map_fst_zip_take] at this
    exact hs (habs ▸ this)
  · intro params args env s v hnd hmem
    simp only [bind_fn, foldl_cons_eq_reverse_append, List.append_nil]
    refine frameLookup_reverse_nodup _ _ _ ?_ hmem
    rw [map_fst_zip_take]
    exact hnd.sublist (List.take_sublist _ _)

/-- C6, witness: with parameters `x y` and the single argument `5`, the call
frame binds `x` to `5` (and the surplus-drop equation at a concrete
instance). -/
theorem bind_fn_zip_semantics_witness :
    frameLookup (bind_fn ["x", "y"] [.Integer 5] 0).values "x" = some (.Integer 5) ∧
    bind_fn ["x"] [.Integer 1, .Integer 2, .Integer 3] 0
      = bind_fn ["x"] ([.Integer 1, .Integer 2, .Integer 3].take 1) 0 := by
  constructor
  · exact bind_fn_zip_semantics.2.2.2.1 ["x", "y"] [.Integer 5] 0 "x" (.Integer 5)
      (by decide) (List.mem_singleton.mpr rfl)
  · exact bind_fn_zip_semantics.1 ["x"] [.Integer 1, .Integer 2, .Integer 3] 0

/-- C7: `(eval expr)` evaluates `expr` once in the current environment and
tail-evaluates the resulting value in the root environment — `get_root`, the
parentless frame reached by following the parent chain from the current
environment (established here for every well-formed heap) — and not in the
lexical environment: `(do (def! x 1) (let* (x 2) (eval (read-str 'x'))))`
returns the root binding `1`, not the lexical `2`. -/
theorem eval_form_reenters_root_env :
    (∀ (f : Nat) (e : Ast) (env : Nat) (st st1 : State) (r : Ast),
      eval (f + 1) e env st = .ok r st1 →
      eval (f + 3) (.List [.Symbol "eval", e]) env st
        = eval (f + 2) r (get_root env st1) st1) ∧
    (∀ (st : State) (e : Nat), WFEnvs st → e < st.envs.length →
      parentOf st (get_root e st) = none ∧
      Relation.ReflTransGen (fun a b => parentOf st a = some b) e (get_root e st)) ∧
    (valueOf (eval 60 progEvalDemo 0 initState) = some (.Integer 1)) := by
  refine ⟨?_, ?_, rfl⟩
  · intro f e env st st1 r h
    rw [eval_cons]
    rw [show eval_list (f + 2) [.Symbol "eval", e] env st
        = EvalRes.bind (eval (f + 1) e env st)
            (fun r s => .ok (.LoopWithAstAndEnv r (get_root env s)) s) from rfl]
    rw [h]
    rfl
  · intro st e hwf he
    simp only [get_root]
    exact get_root_go_spec st hwf (e + 1) e he (by omega)

/-- C7, witness: `(eval 7)` evaluates `7` in the current environment and then
re-evaluates the result in the root environment, which at startup is the
parentless frame `0`. -/
theorem eval_form_reenters_root_env_witness :
    (eval 3 (.List [.Symbol "eval", .Integer 7]) 0 initState
      = eval 2 (.Integer 7) (get_root 0 initState) initState) ∧
    parentOf initState (get_root 0 initState) = none := by
  constructor
  · exact eval_form_reenters_root_env.1 1 (.Integer 7) 0 initState initState (.Integer 7) rfl
  · exact (eval_form_reenters_root_env.2.1 initState 0 wf_initState (by decide)).1

/-- C9, counterexample: a one-argument call of `+` with a non-`Integer`
argument does not panic — the first `pop` succeeds and `get_int` fails at
position 2 with a type-mismatch error before the second `pop` can panic. -/
theorem arith_single_arg_not_always_panic :
    isPanic (add "+" [.String "x"] initState) = false ∧
    errOf (add "+" [.String "x"] initState)
      = some (.ParserError (.TypeMismatch "+" 2 "Integer" (.String "x"))) := ⟨rfl, rfl⟩

/-- C9, amended: each arithmetic builtin pops and uses only the last two
arguments (earlier arguments are silently ignored, e.g. `+` on `[1, 2, 3]`
returns `Integer(5)`); with no arguments, or with one `Integer` argument, the
`unwrap` on an empty pop panics — but a single non-`Integer` argument instead
fails first with a type-mismatch error at position 2.  Computed values are
asserted only where the `i64` result is in range (so debug and release builds
agree); `/` truncates toward zero and panics on a zero divisor and on the
overflowing `i64::MIN / -1`. -/
theorem arith_last_two_args :
    (∀ (name : String) (st : State) (ws : List Ast) (a b : Int),
      (i64Min ≤ a + b → a + b ≤ i64Max →
        add name (ws ++ [.Integer a, .Integer b]) st = .ok (.Integer (a + b)) st) ∧
      (i64Min ≤ a - b → a - b ≤ i64Max →
        sub name (ws ++ [.Integer a, .Integer b]) st = .ok (.Integer (a - b)) st) ∧
      (i64Min ≤ a * b → a * b ≤ i64Max →
        mult name (ws ++ [.Integer a, .Integer b]) st = .ok (.Integer (a * b)) st) ∧
      (b ≠ 0 → ¬(a = i64Min ∧ b = -1) →
        div name (ws ++ [.Integer a, .Integer b]) st = .ok (.Integer (a.tdiv b)) st) ∧
      (div name (ws ++ [.Integer a, .Integer 0]) st = .panic "attempt to divide by zero")) ∧
    (∀ (name : String) (st : State),
      add name [] st = .panic "unwrap" ∧ sub name [] st = .panic "unwrap" ∧
      mult name [] st = .panic "unwrap" ∧ div name [] st = .panic "unwrap") ∧
    (∀ (name : String) (st : State) (n : Int),
      add name [.Integer n] st = .panic "unwrap" ∧ sub name [.Integer n] st = .panic "unwrap" ∧
      mult name [.Integer n] st = .panic "unwrap" ∧ div name [.Integer n] st = .panic "unwrap") ∧
    (∀ (name : String) (st : State) (x : Ast), astTag x ≠ 1 →
      add name [x] st = .err (.ParserError (.TypeMismatch name 2 "Integer" x)) ∧
      sub name [x] st = .err (.ParserError (.TypeMismatch name 2 "Integer" x)) ∧
      mult name [x] st = .err (.ParserError (.TypeMismatch name 2 "Integer" x)) ∧
      div name [x] st = .err (.ParserError (.TypeMismatch name 2 "Integer" x))) ∧
    (∀ (name : String) (st : State) (ws : List Ast),
      div name (ws ++ [.Integer i64Min, .Integer (-1)]) st
        = .panic "attempt to divide with overflow") ∧
    (valueOf (add "+" [.Integer 1, .Integer 2, .Integer 3] initState) = some (.Integer 5)) := by
  refine ⟨?_, fun _ _ => ⟨rfl, rfl, rfl, rfl⟩, fun _ _ _ => ⟨rfl, rfl, rfl, rfl⟩, ?_, ?_, rfl⟩
  · intro name st ws a b
    have hsplit : ws ++ [Ast.Integer a, Ast.Integer b]
        = (ws ++ [Ast.Integer a]) ++ [Ast.Integer b] := by simp
    refine ⟨fun h1 h2 => ?_, fun h1 h2 => ?_, fun h1 h2 => ?_, fun hb hmin => ?_, ?_⟩
    · rw [hsplit]; simp only [add, popBack_concat, get_int]; rw [wrap64_eq_self _ h1 h2]
    · rw [hsplit]; simp only [sub, popBack_concat, get_int]; rw [wrap64_eq_self _ h1 h2]
    · rw [hsplit]; simp only [mult, popBack_concat, get_int]; rw [wrap64_eq_self _ h1 h2]
    · rw [hsplit]; simp only [div, popBack_concat, get_int]; rw [if_neg hb, if_neg hmin]
    · rw [show ws ++ [Ast.Integer a, Ast.Integer 0]
          = (ws ++ [Ast.Integer a]) ++ [Ast.Integer 0] by simp]
      simp only [div, popBack_concat, get_int]
      simp
  · intro name st x hx
    have h2 := get_int_non_integer x 2 name hx
    refine ⟨?_, ?_, ?_, ?_⟩ <;>
      simp only [add, sub, mult, div, popBack, List.reverse_cons, List.reverse_nil,
        List.nil_append, h2]
  · intro name st ws
    rw [show ws ++ [Ast.Integer i64Min, Ast.Integer (-1)]
        = (ws ++ [Ast.Integer i64Min]) ++ [Ast.Integer (-1)] by simp]
    simp only [div, popBack_concat, get_int]
    norm_num

/-- C9, witness: `+` on exactly `[1, 2]` returns the in-range sum `3`, `/` on
exactly `[7, 2]` returns the truncated quotient `3`, and `+` on a single
`Boolean` argument yields the position-2 type-mismatch error rather than a
panic. -/
theorem arith_last_two_args_witness :
    add "+" [.Integer 1, .Integer 2] initState = .ok (.Integer 3) initState ∧
    div "/" [.Integer 7, .Integer 2] initState = .ok (.Integer 3) initState ∧
    add "+" [.Boolean true] initState
      = .err (.ParserError (.TypeMismatch "+" 2 "Integer" (.Boolean true))) := by
  refine ⟨?_, ?_, ?_⟩
  · have h := (arith_last_two_args.1 "+" initState [] 1 2).1 (by decide) (by decide)
    exact h.trans rfl
  · have h := ((arith_last_two_args.1 "/" initState [] 7 2).2.2.2.1
      (by decide) (by decide))
    exact h.trans rfl
  · exact (arith_last_two_args.2.2.2.1 "+" initState (.Boolean true) (by decide)).1

/-- C10: an `if` form with exactly two arguments whose condition evaluates to
`Boolean(false)` panics with an out-of-bounds `remove(2)` instead of
returning a value or an error; with three arguments the same `remove(2)` is
in bounds and selects the else branch. -/
theorem if_two_arg_false_panics :
    ∀ (f : Nat) (cond thenB : Ast) (env : Nat) (st st1 : State),
      eval (f + 1) cond env st = .ok (.Boolean false) st1 →
      (eval (f + 4) (.List [.Symbol "if", cond, thenB]) env st
        = .panic "index out of bounds") ∧
      (∀ elseB, eval (f + 4) (.List [.Symbol "if", cond, thenB, elseB]) env st
        = eval (f + 3) elseB env st1) := by
  intro f cond thenB env st st1 h
  constructor
  · have hdo : do_form_if (f + 2) [.Symbol "if", cond, thenB] env st
        = .panic "index out of bounds" := by
      show EvalRes.bind (eval (f + 1) cond env st) _ = _
      rw [h]; rfl
    rw [eval_cons]
    rw [show eval_list (f + 3) [.Symbol "if", cond, thenB] env st
        = EvalRes.bind (do_form_if (f + 2) [.Symbol "if", cond, thenB] env st)
            (fun a s => .ok (.LoopWithAst a) s) from rfl]
    rw [hdo]; rfl
  · intro elseB
    have hdo : do_form_if (f + 2) [.Symbol "if", cond, thenB, elseB] env st
        = .ok elseB st1 := by
      show EvalRes.bind (eval (f + 1) cond env st) _ = _
      rw [h]; rfl
    rw [eval_cons]
    rw [show eval_list (f + 3) [.Symbol "if", cond, thenB, elseB] env st
        = EvalRes.bind (do_form_if (f + 2) [.Symbol "if", cond, thenB, elseB] env st)
            (fun a s => .ok (.LoopWithAst a) s) from rfl]
    rw [hdo]; rfl

/-- C8: after `(def! loop (fun* (n) (if (= n 0) 0 (loop (- n 1)))))` at
startup (producing exactly the store `stLoop`), evaluating `(loop n)` for any
`n ≥ 0` completes through the explicit trampoline `evalLoop` and returns
`Integer(0)`, with the nested-evaluation fuel — the measure of host
call-stack use inside one iteration — fixed at the constant `10`, independent
of `n`: if branches and closure bodies come back to the single loop as
`LoopWithAst`/`LoopWithAstAndEnv` behaviours (`loop_body_step`,
`loop_call_step`) instead of recursing on the host stack; only the iteration
count `k` grows with `n`. -/
theorem tail_recursive_loop_bounded_stack :
    (eval 9 defLoopForm 0 initState = .ok loopFunAst stLoop) ∧
    (∀ n : Nat, ∃ k st',
      evalLoop 10 k (.List [.Symbol "loop", .Integer (n : Int)]) 0 stLoop
        = .ok (.Integer 0) st') := by
  constructor
  · rfl
  · intro n
    obtain ⟨k, st', hk⟩ := loop_runs n
      ⟨[⟨("loop", loopFunAst) :: create_root_env.values, none⟩,
        ⟨[("n", .Integer (n : Int))], some 0⟩], []⟩
      1 ⟨("loop", loopFunAst) :: create_root_env.values, none⟩
      rfl rfl rfl rfl rfl (by decide)
    refine ⟨k + 1, st', ?_⟩
    rw [show evalLoop 10 (k + 1) (.List [.Symbol "loop", .Integer (n : Int)]) 0 stLoop
        = evalLoop 10 k loopBody 1
            ⟨[⟨("loop", loopFunAst) :: create_root_env.values, none⟩,
              ⟨[("n", .Integer (n : Int))], some 0⟩], []⟩ from rfl]
    exact hk

/-- C10, witness: `(if false 1)` panics; `(if false 1 2)` returns `2`. -/
theorem if_two_arg_false_panics_witness :
    eval 5 (.List [.Symbol "if", .Boolean false, .Integer 1]) 0 initState
      = .panic "index out of bounds" ∧
    eval 5 (.List [.Symbol "if", .Boolean false, .Integer 1, .Integer 2]) 0 initState
      = .ok (.Integer 2) initState := by
  have h := if_two_arg_false_panics 1 (.Boolean false) (.Integer 1) 0 initState initState rfl
  exact ⟨h.1, (h.2 (.Integer 2)).trans rfl⟩

end Beesting
